import Mathlib

/-!
Shallow embedding of `src/anyplot.py` (the anyplot command-line tool) and
proofs about its cache-lookup and code-synthesis/validation subsystem.

Modelling conventions:
* Python exceptions are modelled with `Except PyError`; an uncaught exception
  is an `Except.error` result.
* The Anthropic model client, the `re` regular-expression library, the
  subprocess layer and the file system are external effects; they are passed
  in explicitly as oracle records (`ReEnv`, `SynthEnv`, a file-existence
  predicate, an abstract SHA-256 function).  The pure control flow of the
  Python functions themselves is translated faithfully.
* Python `dict`s (which preserve insertion order) are modelled as association
  lists; `dictInsert` mirrors `d[k] = v` (update in place, else append) and
  `dictGet` mirrors `d.get(k)`.
* `print(..., file=sys.stderr)` diagnostics and `chmod` permission bits are
  not modelled (they carry no data used by any claim).
-/

namespace Anyplot

/-- Python exceptions raised by the code under `src/anyplot.py`.
`valueError` models `ValueError(msg)`; `jsonDecodeError` models the
`json.JSONDecodeError` escaping `json.load` (or an `AttributeError` from
`data.get` on a non-object); `reError` models an `re.error` escaping
`re.compile` on an invalid pattern. -/
inductive PyError where
  | valueError (msg : String)
  | jsonDecodeError
  | reError (pattern : String)
deriving DecidableEq, Repr

/-- One message of the conversation sent to the model
(`anthropic.types.MessageParam`). -/
structure Msg where
  role : String
  content : String
deriving DecidableEq, Repr

def userMsg (content : String) : Msg := { role := "user", content := content }

def assistantMsg (content : String) : Msg := { role := "assistant", content := content }

/-! ### `get_final_code_block` (anyplot.py lines 63-68)

The Python code runs `re.search(r'```\w*\n(.*?)\n```\s*$', text, re.DOTALL)`
and returns group 1, raising `ValueError("No final code block found")` when
there is no match.  We implement that specific search directly:
`re.search` finds the match with the leftmost starting position; at that
position `\w*` is greedy (and deterministic, since a word character is never
a newline) and the lazy group `(.*?)` takes the shortest extent that lets
`\n``` ``` `\s*$` close the match.  `\w` and `\s` are modelled over their
ASCII ranges, which is what the code exercises. -/

/-- The three-backtick fence delimiter of the pattern. -/
def fence : List Char := "```".data

/-- ASCII model of Python's regex class `\w`. -/
def isWordChar (c : Char) : Bool := c.isAlphanum || c == '_'

/-- ASCII model of Python's regex class `\s`. -/
def isPySpace (c : Char) : Bool :=
  c == ' ' || c == '\t' || c == '\n' || c == '\r' || c == '\x0b' || c == '\x0c'

/-- Does the rest of the text close the pattern here, i.e. is it
`\n``` ``` ` followed by whitespace only (the `\s*$` tail)? -/
def fgClose (s : List Char) : Bool :=
  match s with
  | c :: rest => c == '\n' && fence.isPrefixOf rest && (rest.drop 3).all isPySpace
  | [] => false

/-- The lazy group `(.*?)`: scan for the earliest position where the pattern
can close, accumulating the group contents. -/
def fgGroup : List Char → List Char → Option (List Char)
  | [], acc => if fgClose [] then some acc.reverse else none
  | c :: rest, acc =>
    if fgClose (c :: rest) then some acc.reverse else fgGroup rest (c :: acc)

/-- Try to match ``` ``` ``\w*\n(.*?)\n``` ``` ``\s*$`` starting at this position,
returning group 1 on success. -/
def fgMatchAt (s : List Char) : Option (List Char) :=
  if fence.isPrefixOf s then
    match (s.drop 3).dropWhile isWordChar with
    | c :: rest => if c == '\n' then fgGroup rest [] else none
    | [] => none
  else none

/-- `re.search`: try each starting position from the left. -/
def fgSearch : List Char → Option (List Char)
  | [] => none
  | s@(_ :: rest) =>
    match fgMatchAt s with
    | some g => some g
    | none => fgSearch rest

/-- `get_final_code_block` (anyplot.py lines 63-68). -/
def get_final_code_block (text : String) : Except PyError String :=
  match fgSearch text.data with
  | some g => .ok (String.mk g)
  | none => .error (.valueError "No final code block found")

/-- Specification-side predicate: `content` is the body of a fenced code
block that ends the text, i.e. the text decomposes as
`pre ++ "```" ++ word ++ "\n" ++ content ++ "\n```" ++ trailing-whitespace`. -/
def TrailingFence (text content : List Char) : Prop :=
  ∃ pre w ws,
    text = pre ++ fence ++ w ++ '\n' :: (content ++ '\n' :: (fence ++ ws)) ∧
    w.all isWordChar = true ∧ ws.all isPySpace = true

/-! ### Cache metadata (anyplot.py lines 18-43) -/

/-- The `Metadata` TypedDict: instruction → (regex pattern → script id),
both levels insertion-ordered. -/
structure Metadata where
  instructionsToRegexToScriptId : List (String × List (String × String))
deriving DecidableEq, Repr

def emptyMetadata : Metadata := { instructionsToRegexToScriptId := [] }

/-- The possible states of the persisted `metadata.json` file, as seen by
`load_cache_metadata`: absent; present but such that reading it raises
(unparseable JSON, or a top-level value with no `.get`); or present and
readable, with the `instructionsToRegexToScriptId` key optional. -/
inductive MetadataFile where
  | missing
  | malformed
  | wellFormed (field : Option (List (String × List (String × String))))

/-- `load_cache_metadata` (anyplot.py lines 32-38).  Note the source has no
`try`/`except`: a malformed file makes `json.load` (or `data.get`) raise and
the exception propagates. -/
def load_cache_metadata : MetadataFile → Except PyError Metadata
  | .missing => .ok emptyMetadata
  | .malformed => .error .jsonDecodeError
  | .wellFormed field => .ok { instructionsToRegexToScriptId := field.getD [] }

/-! ### Insertion-ordered dictionaries -/

/-- `d.get(k)` on an insertion-ordered dictionary. -/
def dictGet (k : String) (l : List (String × α)) : Option α :=
  (l.find? (fun e => e.1 == k)).map (fun e => e.2)

/-- `d[k] = v` on an insertion-ordered dictionary: replace the (first)
occurrence in place when the key is present — keys are unique in any
dictionary the code builds — append at the end otherwise. -/
def dictInsert (k : String) (v : α) : List (String × α) → List (String × α)
  | [] => [(k, v)]
  | e :: t => if e.1 == k then (k, v) :: t else e :: dictInsert k v t

/-- Number of entries stored under a key. -/
def keyCount (k : String) (l : List (String × α)) : Nat :=
  (l.filter (fun e => e.1 == k)).length

/-! ### Cache store on disk -/

/-- The on-disk state touched by the cache store: the files under the cache
directory (path → bytes) and the in-memory `Metadata` dictionary (which
`save_cache_metadata` flushes to `metadata.json` on every commit, so the
persisted copy equals this value). -/
structure CacheState where
  files : List (String × String)
  metadata : Metadata
deriving DecidableEq, Repr

/-- `content.startswith("#!")`. -/
def startsWithShebang (content : String) : Bool :=
  "#!".data.isPrefixOf content.data

/-- The normalization prelude shared by `write_script` (lines 189-190) and
`save_script` (lines 278-279): prepend an interpreter directive when the
content does not already start with `#!`. -/
def shebang_normalize (content : String) : String :=
  if startsWithShebang content then content else "#!/usr/bin/env python3\n\n" ++ content

/-- `write_script` (anyplot.py lines 188-192): normalize, then
`path.write_text(content)`.  The `chmod(0o755)` permission bits are not part
of the byte-level model. -/
def write_script (content : String) (path : String) (files : List (String × String)) :
    List (String × String) :=
  dictInsert path (shebang_normalize content) files

/-- The path `scripts/<id>.py` relative to the cache directory. -/
def script_path_for (script_id : String) : String :=
  "scripts/" ++ script_id ++ ".py"

/-- `save_script` (anyplot.py lines 277-294).  `sha256hex` abstracts
`hashlib.sha256(s.encode()).hexdigest()`.  Returns the script path and the
updated cache state (files plus metadata, the latter persisted by
`save_cache_metadata`). -/
def save_script (sha256hex : String → String) (script_content instructions data_regex : String)
    (st : CacheState) : String × CacheState :=
  let script_content := shebang_normalize script_content
  let script_id := sha256hex script_content
  let script_path := script_path_for script_id
  let files := write_script script_content script_path st.files
  let inner := (dictGet instructions st.metadata.instructionsToRegexToScriptId).getD []
  let meta : Metadata :=
    { instructionsToRegexToScriptId :=
        dictInsert instructions (dictInsert data_regex script_id inner)
          st.metadata.instructionsToRegexToScriptId }
  (script_path, { files := files, metadata := meta })

/-! ### The regular-expression library as an oracle -/

/-- The `re` library, abstracted: `compiles p` is whether `re.compile(p)`
succeeds (otherwise it raises `re.error`), and `re_match p line` is whether
`re.compile(p).match(line)` (match anchored at the start of the string, as
Python's `re.match`) returns a match object. -/
structure ReEnv where
  compiles : String → Bool
  re_match : String → String → Bool

/-! ### `find_cached_script` (anyplot.py lines 169-185) -/

/-- The `for regex_pattern, script_id in regex_to_script_id.items()` loop of
`find_cached_script`: a pattern that fails to compile is skipped
(`except re.error: continue`), as is a matching pattern whose script file no
longer exists. -/
def find_cached_loop (env : ReEnv) (fs : String → Bool) (lines : List String) :
    List (String × String) → Option String
  | [] => none
  | (regex_pattern, script_id) :: rest =>
    if env.compiles regex_pattern then
      if (lines.take 10).all (fun line => env.re_match regex_pattern line) then
        if fs script_id then some (script_path_for script_id)
        else find_cached_loop env fs lines rest
      else find_cached_loop env fs lines rest
    else find_cached_loop env fs lines rest

/-- `find_cached_script` (anyplot.py lines 169-185).  `fs id` is whether the
file `scripts/<id>.py` exists.  Returns the path of the cached script, or
`none`.  The `if not regex_to_script_id` guard treats both a missing key and
an empty inner dictionary as a miss. -/
def find_cached_script (env : ReEnv) (fs : String → Bool) (instructions : String)
    (lines : List String) (metadata : Metadata) : Option String :=
  match dictGet instructions metadata.instructionsToRegexToScriptId with
  | none => none
  | some regex_to_script_id =>
    if regex_to_script_id.isEmpty then none
    else find_cached_loop env fs lines regex_to_script_id

/-! ### `validate_script` (anyplot.py lines 195-211) -/

/-- Outcome of the validation subprocess
(`subprocess.run([script, "--dry-run"], input=..., timeout=30)`): normal
exit with a return code and captured output streams, a
`subprocess.TimeoutExpired`, or any other launch-level exception `e`
(carrying `str(e)`). -/
inductive ProcOutcome where
  | exits (returncode : Int) (stdout stderr : String)
  | timedOut
  | raised (msg : String)
deriving DecidableEq, Repr

/-- The `timeout=30` argument of the validation subprocess, in seconds. -/
def validate_timeout_seconds : Nat := 30

/-- `validate_script` (anyplot.py lines 195-211), as a function of the
subprocess outcome.  Returns `(success, error-text)`. -/
def validate_script (outcome : ProcOutcome) : Bool × Option String :=
  match outcome with
  | .exits returncode _stdout stderr =>
    if returncode ≠ 0 then (false, some stderr) else (true, none)
  | .timedOut => (false, some "Script execution timed out")
  | .raised msg => (false, some msg)

/-! ### `create_regex` (anyplot.py lines 71-166)

`ask_claude` is abstracted as a function from the message list to the reply
text (any concrete run of the tool is described by some such function); the
`re` library is the `ReEnv` oracle above. -/

/-- The model client: `ask_claude(messages)` returns the reply text. -/
structure LlmEnv where
  ask : List Msg → String

/-- The oracles `create_regex` depends on. -/
structure RegexEnv extends LlmEnv, ReEnv

/-- The initial prompt of `create_regex` (anyplot.py lines 77-131). -/
def regex_initial_prompt (representative_lines : List String) : String :=
  "Here are several strings, one per line:\n\n```\n" ++
  String.intercalate "\n" representative_lines ++
  "\n```\n\nRespond with a regular expression that matches all of the strings.\n" ++
  "Return the regex in a code block (``` ... ```) at the end of your message.\n\n" ++
  "Examples:\n\nInput:\n\n    ```\n    123\n    456\n    789\n    ```\n\n" ++
  "Output:\n\n    ```\n    ^\\d+$\n    ```\n\n" ++
  "Input:\n\n    ```\n    123\n    -45.6\n    789\n    ```\n\n" ++
  "Output:\n\n    ```\n    ^-?\\d+(\\.\\d*)?$\n    ```\n\n\n" ++
  "Input:\n\n    ```\n    2020-01-02T03:04:05.678Z   1\n    2020-01-02T03:05:05.678Z   2\n    2020-01-02T03:08:05.678Z   1\n    ```\n\n" ++
  "Output:\n\n    ```\n    ^\\d{4}-\\d{2}-\\d{2}T\\d{2}:\\d{2}:\\d{2}\\.\\d+Z\\s+\\d+$\n    ```\n\n"

/-- The corrective prompt of `create_regex` (anyplot.py line 156). -/
def regex_fix_prompt (failures : List String) : String :=
  "The regex failed to match the following lines:\n\n" ++
  String.intercalate "\n" failures ++
  "\n\nPlease fix the regex."

/-- The failing lines collected on one round of `create_regex`
(anyplot.py line 144): lines the current pattern does not match, capped at 5. -/
def regex_failures (env : RegexEnv) (lines : List String) (pattern : String) : List String :=
  (lines.filter (fun line => !(env.re_match pattern line))).take 5

/-- The `for attempt in range(max_attempts)` loop of `create_regex`
(anyplot.py lines 143-166), with `fuel` the number of rounds left and
`max_attempts` kept for the final error message.  `re.compile` on a
non-compiling pattern raises. -/
def create_regex_loop (env : RegexEnv) (lines : List String) (max_attempts : Nat) :
    Nat → String → List String → List Msg → Except PyError (String × List String)
  | 0, _pattern, _representative_lines, _messages =>
    .error (.valueError
      ("Failed to generate valid regex after " ++ toString max_attempts ++ " attempts"))
  | fuel + 1, pattern, representative_lines, messages =>
    let failures := regex_failures env lines pattern
    if failures.isEmpty then .ok (pattern, representative_lines)
    else
      let representative_lines := representative_lines ++ failures
      let messages := messages ++ [userMsg (regex_fix_prompt failures)]
      let response := env.ask messages
      let messages := messages ++ [assistantMsg response]
      match get_final_code_block response with
      | .error e => .error e
      | .ok pattern =>
        if env.compiles pattern then
          create_regex_loop env lines max_attempts fuel pattern representative_lines messages
        else .error (.reError pattern)

/-- `create_regex` (anyplot.py lines 71-166).  `main` calls it with the
default `max_attempts = 5`. -/
def create_regex (env : RegexEnv) (lines : List String) (max_attempts : Nat) :
    Except PyError (String × List String) :=
  let representative_lines := lines.take 5
  let messages := [userMsg (regex_initial_prompt representative_lines)]
  let response := env.ask messages
  let messages := messages ++ [assistantMsg response]
  match get_final_code_block response with
  | .error e => .error e
  | .ok pattern =>
    if env.compiles pattern then
      create_regex_loop env lines max_attempts max_attempts pattern representative_lines messages
    else .error (.reError pattern)

/-! ### `synthesize_script` (anyplot.py lines 214-274)

The validation subprocess runs are abstracted as a function `run` from the
index of the validation call (= the attempt number) to a `ProcOutcome`.  To
make the claim "without invoking the model again" statable, the embedding
additionally returns how many `ask_claude` calls the run made. -/

/-- The oracles `synthesize_script` depends on. -/
structure SynthEnv extends LlmEnv where
  run : Nat → ProcOutcome

/-- The initial prompt of `synthesize_script` (anyplot.py lines 215-231). -/
def synth_initial_prompt (instructions : String) (lines : List String) : String :=
  "Generate a Python script that uses plotly to create a visualization based on these instructions: \"" ++
  instructions ++ "\"\n\nHere are the first few lines of the data:\n```\n" ++
  String.intercalate "\n" (lines.take 10) ++
  "\n```\n\nThe script should:\n1. Read data from stdin (using sys.stdin)\n" ++
  "2. Parse the data appropriately based on the format shown\n" ++
  "3. Create a plotly visualization according to the instructions\n" ++
  "4. Display the plot using plotly.graph_objects or plotly.express\n" ++
  "5. Accept an optional `--dry-run` flag; if given, it still makes almost all the Plotly calls, to reveal any errors; it just skips the `.show()` at the end.\n\n" ++
  "Libraries available: plotly, numpy, scipy\n\n" ++
  "Return the COMPLETE Python script in a code block (``` ... ```) at the end of your message. The script should be complete and runnable."

/-- The corrective prompt of `synthesize_script` (anyplot.py lines 257-262);
Python formats a `None` error as the text `None`. -/
def synth_fix_prompt (error : Option String) : String :=
  "The script failed with this error:\n```\n" ++
  error.getD "None" ++
  "\n```\n\nPlease fix the script and provide ONLY the corrected Python code, nothing else."

/-- The `for attempt in range(max_attempts)` loop of `synthesize_script`
(anyplot.py lines 246-272).  `temp` is the current content of the temp file
(what `write_script` last wrote), `attempt` the index of the next validation
call, and `asks` the number of `ask_claude` calls made so far.  On success it
returns `temp_path.read_text()` together with that count. -/
def synth_loop (env : SynthEnv) (max_attempts : Nat) :
    Nat → Nat → String → List Msg → Nat → Except PyError (String × Nat)
  | 0, _attempt, _temp, _messages, _asks =>
    .error (.valueError
      ("Failed to generate valid script after " ++ toString max_attempts ++ " attempts"))
  | fuel + 1, attempt, temp, messages, asks =>
    let v := validate_script (env.run attempt)
    if v.1 then .ok (temp, asks)
    else
      let messages := messages ++ [userMsg (synth_fix_prompt v.2)]
      let response := env.ask messages
      let messages := messages ++ [assistantMsg response]
      match get_final_code_block response with
      | .error e => .error e
      | .ok code =>
        synth_loop env max_attempts fuel (attempt + 1) (shebang_normalize code) messages (asks + 1)

/-- `synthesize_script` (anyplot.py lines 214-274).  `main` calls it with the
default `max_attempts = 5`.  The temp file is deleted in the `finally`
block either way, so it is not part of the result. -/
def synthesize_script (env : SynthEnv) (instructions : String) (lines : List String)
    (max_attempts : Nat) : Except PyError (String × Nat) :=
  let messages := [userMsg (synth_initial_prompt instructions lines)]
  let response := env.ask messages
  let messages := messages ++ [assistantMsg response]
  match get_final_code_block response with
  | .error e => .error e
  | .ok code =>
    synth_loop env max_attempts max_attempts 0 (shebang_normalize code) messages 1

/-! ### The cache-miss path of `main` (anyplot.py lines 372-381) -/

/-- The cache-miss branch of `main`: derive a regex with `create_regex`
(default budget 5), synthesize a script from the representative lines
(default budget 5), and only then commit it with `save_script`.  Returns the
result (or the propagated exception) together with the resulting cache
state; an exception leaves the cache state untouched. -/
def miss_path (renv : RegexEnv) (senv : SynthEnv) (sha256hex : String → String)
    (instructions : String) (lines : List String) (st : CacheState) :
    Except PyError String × CacheState :=
  match create_regex renv lines 5 with
  | .error e => (.error e, st)
  | .ok (regex, representative_lines) =>
    match synthesize_script senv instructions representative_lines 5 with
    | .error e => (.error e, st)
    | .ok (script_content, _asks) =>
      let (script_path, st') := save_script sha256hex script_content instructions regex st
      (.ok script_path, st')

/-! ### Auxiliary definitions for the claims -/

/-- Does `needle` occur as a contiguous run inside `hay`?  Used to state that
an error message does not contain a given failure text. -/
def listInfixOf (needle : List Char) : List Char → Bool
  | [] => needle.isPrefixOf []
  | h :: t => needle.isPrefixOf (h :: t) || listInfixOf needle t

/-- A model client whose reply always carries the regex `^.*$` in a trailing
code block, a `re` library on which every pattern compiles and matches every
line. -/
def wRegexAll : RegexEnv :=
  { ask := fun _ => "```\n^.*$\n```"
    compiles := fun _ => true
    re_match := fun _ _ => true }

/-- Like `wRegexAll`, but no pattern ever matches any line. -/
def wRegexNone : RegexEnv :=
  { ask := fun _ => "```\n^.*$\n```"
    compiles := fun _ => true
    re_match := fun _ _ => false }

/-- A synthesis environment whose model reply always carries `import sys` in
a trailing code block and whose validation subprocess always exits 0. -/
def wSynthOk : SynthEnv :=
  { ask := fun _ => "```\nimport sys\n```"
    run := fun _ => .exits 0 "" "" }

/-- Like `wSynthOk`, but every validation subprocess exits 1 with the
standard-error text `XYZZY`. -/
def wSynthFail : SynthEnv :=
  { ask := fun _ => "```\nimport sys\n```"
    run := fun _ => .exits 1 "" "XYZZY" }

/-- A stand-in content hash for concrete witnesses. -/
def wSha : String → String := fun _ => "a1b2"

/-- An empty cache state. -/
def wState : CacheState := { files := [], metadata := emptyMetadata }

/-- A concrete `re` oracle for the cache-lookup witness: every pattern
compiles, and only the pattern `^b$` matches (any line). -/
def wReB : ReEnv :=
  { compiles := fun _ => true
    re_match := fun p _ => p == "^b$" }

/-- Concrete cache metadata with two patterns stored under one
instruction. -/
def wMeta : Metadata :=
  { instructionsToRegexToScriptId :=
      [("plot X over time", [("^a$", "id1"), ("^b$", "id2")])] }

/-! ## Lemmas about the trailing-code-block search -/

theorem isPrefixOf_exists_append {l₁ l₂ : List Char} (h : l₁.isPrefixOf l₂ = true) :
    ∃ t, l₂ = l₁ ++ t := by
  induction l₁ generalizing l₂ with
  | nil => exact ⟨l₂, rfl⟩
  | cons a as ih =>
    cases l₂ with
    | nil => simp [List.isPrefixOf] at h
    | cons b bs =>
      simp only [List.isPrefixOf, Bool.and_eq_true, beq_iff_eq] at h
      obtain ⟨t, ht⟩ := ih h.2
      exact ⟨t, by rw [h.1, ht]; rfl⟩

theorem isPrefixOf_append_self (l t : List Char) : l.isPrefixOf (l ++ t) = true := by
  induction l with
  | nil => cases t <;> rfl
  | cons a as ih => simp [List.isPrefixOf, ih]

theorem drop3_fence_append (t : List Char) : (fence ++ t).drop 3 = t :=
  List.drop_left fence t

theorem dropWhile_all_cons {p : Char → Bool} {w : List Char} (hw : w.all p = true)
    {x : Char} (hx : p x = false) (r : List Char) :
    List.dropWhile p (w ++ x :: r) = x :: r := by
  induction w with
  | nil => simp [List.dropWhile_cons, hx]
  | cons a as ih =>
    simp only [List.all_cons, Bool.and_eq_true] at hw
    simp [List.dropWhile_cons, hw.1, ih hw.2]

theorem fgClose_iff (s : List Char) :
    fgClose s = true ↔ ∃ ws, s = '\n' :: (fence ++ ws) ∧ ws.all isPySpace = true := by
  constructor
  · intro h
    cases s with
    | nil => simp [fgClose] at h
    | cons c rest =>
      simp only [fgClose, Bool.and_eq_true, beq_iff_eq] at h
      obtain ⟨⟨hc, hp⟩, ha⟩ := h
      obtain ⟨t, ht⟩ := isPrefixOf_exists_append hp
      refine ⟨t, by rw [hc, ht], ?_⟩
      have h3 : rest.drop 3 = t := by rw [ht]; exact drop3_fence_append t
      rwa [h3] at ha
  · rintro ⟨ws, rfl, hws⟩
    simp [fgClose, isPrefixOf_append_self, drop3_fence_append, hws]

theorem fgGroup_sound : ∀ (s acc g : List Char), fgGroup s acc = some g →
    ∃ mid ws, s = mid ++ '\n' :: (fence ++ ws) ∧ ws.all isPySpace = true ∧
      g = acc.reverse ++ mid := by
  intro s
  induction s with
  | nil =>
    intro acc g h
    simp [fgGroup, fgClose] at h
  | cons c rest ih =>
    intro acc g h
    rw [fgGroup] at h
    by_cases hc : fgClose (c :: rest) = true
    · rw [if_pos hc] at h
      obtain ⟨ws, hs, hws⟩ := (fgClose_iff _).1 hc
      refine ⟨[], ws, by simpa using hs, hws, ?_⟩
      simpa using (Option.some.inj h).symm
    · rw [if_neg hc] at h
      obtain ⟨mid, ws, hs, hws, hg⟩ := ih (c :: acc) g h
      refine ⟨c :: mid, ws, by rw [hs]; rfl, hws, ?_⟩
      rw [hg]; simp

theorem fgGroup_some : ∀ (mid s acc ws : List Char),
    s = mid ++ '\n' :: (fence ++ ws) → ws.all isPySpace = true →
    (fgGroup s acc).isSome = true := by
  intro mid
  induction mid with
  | nil =>
    intro s acc ws hs hws
    subst hs
    have hc : fgClose ('\n' :: (fence ++ ws)) = true := (fgClose_iff _).2 ⟨ws, rfl, hws⟩
    simp [fgGroup, hc]
  | cons m mid' ih =>
    intro s acc ws hs hws
    subst hs
    rw [List.cons_append, fgGroup]
    by_cases hc : fgClose (m :: (mid' ++ '\n' :: (fence ++ ws))) = true
    · rw [if_pos hc]; rfl
    · rw [if_neg hc]; exact ih _ _ _ rfl hws

theorem fgMatchAt_sound {s g : List Char} (h : fgMatchAt s = some g) :
    ∃ w mid ws, s = fence ++ (w ++ '\n' :: (mid ++ '\n' :: (fence ++ ws))) ∧
      w.all isWordChar = true ∧ ws.all isPySpace = true ∧ g = mid := by
  rw [fgMatchAt] at h
  by_cases hp : fence.isPrefixOf s = true
  case neg => rw [if_neg hp] at h; exact absurd h (by simp)
  rw [if_pos hp] at h
  obtain ⟨t, rfl⟩ := isPrefixOf_exists_append hp
  rw [drop3_fence_append] at h
  rcases hd : t.dropWhile isWordChar with _ | ⟨c, rest⟩
  · rw [hd] at h; exact absurd h (by simp)
  · rw [hd] at h
    have h' : (if (c == '\n') = true then fgGroup rest [] else none) = some g := h
    by_cases hc : (c == '\n') = true
    case neg => rw [if_neg hc] at h'; exact absurd h' (by simp)
    rw [if_pos hc] at h'
    have hceq : c = '\n' := beq_iff_eq.mp hc
    obtain ⟨mid, ws, hrest, hws, hg⟩ := fgGroup_sound rest [] g h'
    refine ⟨t.takeWhile isWordChar, mid, ws, ?_, ?_, hws, by simpa using hg⟩
    · have hsplit : t = t.takeWhile isWordChar ++ t.dropWhile isWordChar :=
        (List.takeWhile_append_dropWhile _ _).symm
      nth_rewrite 1 [hsplit]
      rw [hd, hceq, hrest]
    · exact List.all_eq_true.mpr fun x hx => List.mem_takeWhile_imp hx

theorem fgMatchAt_some {w ws : List Char} (mid : List Char) (hw : w.all isWordChar = true)
    (hws : ws.all isPySpace = true) :
    (fgMatchAt (fence ++ (w ++ '\n' :: (mid ++ '\n' :: (fence ++ ws))))).isSome = true := by
  rw [fgMatchAt, if_pos (isPrefixOf_append_self _ _), drop3_fence_append,
    dropWhile_all_cons hw (by decide)]
  simp only [beq_self_eq_true, if_true]
  exact fgGroup_some mid _ [] ws rfl hws

theorem fgSearch_sound : ∀ (l g : List Char), fgSearch l = some g →
    ∃ pre s, l = pre ++ s ∧ fgMatchAt s = some g := by
  intro l
  induction l with
  | nil => intro g h; simp [fgSearch] at h
  | cons c rest ih =>
    intro g h
    rw [fgSearch] at h
    rcases hm : fgMatchAt (c :: rest) with _ | g'
    · rw [hm] at h
      have h' : fgSearch rest = some g := h
      obtain ⟨pre, s, hl, hs⟩ := ih g h'
      exact ⟨c :: pre, s, by rw [hl]; rfl, hs⟩
    · rw [hm] at h
      have h' : some g' = some g := h
      exact ⟨[], c :: rest, rfl, by rw [hm, Option.some.inj h']⟩

theorem fgSearch_some : ∀ (pre s : List Char), (fgMatchAt s).isSome = true →
    (fgSearch (pre ++ s)).isSome = true := by
  intro pre
  induction pre with
  | nil =>
    intro s hs
    cases s with
    | nil => rw [show fgMatchAt [] = none from rfl] at hs; simp at hs
    | cons c rest =>
      rw [List.nil_append, fgSearch]
      rcases hm : fgMatchAt (c :: rest) with _ | g
      · rw [hm] at hs; simp at hs
      · rfl
  | cons p pre' ih =>
    intro s hs
    rw [List.cons_append, fgSearch]
    rcases hm : fgMatchAt (p :: (pre' ++ s)) with _ | g
    · exact ih s hs
    · rfl

theorem trailingFence_iff_isSome (l : List Char) :
    (∃ c, TrailingFence l c) ↔ (fgSearch l).isSome = true := by
  constructor
  · rintro ⟨c, pre, w, ws, hl, hw, hws⟩
    subst hl
    have h := fgMatchAt_some c hw hws
    have hre : pre ++ fence ++ w ++ '\n' :: (c ++ '\n' :: (fence ++ ws)) =
        pre ++ (fence ++ (w ++ '\n' :: (c ++ '\n' :: (fence ++ ws)))) := by
      simp [List.append_assoc]
    rw [hre]
    exact fgSearch_some pre _ h
  · intro hs
    obtain ⟨g, hg⟩ := Option.isSome_iff_exists.mp hs
    obtain ⟨pre, s, hl, hm⟩ := fgSearch_sound l g hg
    obtain ⟨w, mid, ws, hsplit, hw, hws, _⟩ := fgMatchAt_sound hm
    refine ⟨mid, pre, w, ws, ?_, hw, hws⟩
    rw [hl, hsplit]
    simp [List.append_assoc]

/-! ## Unfolding equations (proved by `rfl`) -/

theorem create_regex_loop_succ_eq (env : RegexEnv) (lines : List String) (max_attempts fuel : Nat)
    (pattern : String) (rep : List String) (msgs : List Msg) :
    create_regex_loop env lines max_attempts (fuel + 1) pattern rep msgs =
      (if (regex_failures env lines pattern).isEmpty then .ok (pattern, rep)
       else
         match get_final_code_block
             (env.ask (msgs ++ [userMsg (regex_fix_prompt (regex_failures env lines pattern))])) with
         | .error e => .error e
         | .ok pattern2 =>
           if env.compiles pattern2 then
             create_regex_loop env lines max_attempts fuel pattern2
               (rep ++ regex_failures env lines pattern)
               (msgs ++ [userMsg (regex_fix_prompt (regex_failures env lines pattern))] ++
                 [assistantMsg (env.ask
                   (msgs ++ [userMsg (regex_fix_prompt (regex_failures env lines pattern))]))])
           else .error (.reError pattern2)) := rfl

theorem create_regex_eq (env : RegexEnv) (lines : List String) (max_attempts : Nat) :
    create_regex env lines max_attempts =
      (match get_final_code_block (env.ask [userMsg (regex_initial_prompt (lines.take 5))]) with
       | .error e => .error e
       | .ok pattern =>
         if env.compiles pattern then
           create_regex_loop env lines max_attempts max_attempts pattern (lines.take 5)
             ([userMsg (regex_initial_prompt (lines.take 5))] ++
               [assistantMsg (env.ask [userMsg (regex_initial_prompt (lines.take 5))])])
         else .error (.reError pattern)) := rfl

theorem synth_loop_succ_eq (env : SynthEnv) (max_attempts fuel attempt : Nat) (temp : String)
    (msgs : List Msg) (asks : Nat) :
    synth_loop env max_attempts (fuel + 1) attempt temp msgs asks =
      (if (validate_script (env.run attempt)).1 then .ok (temp, asks)
       else
         match get_final_code_block
             (env.ask (msgs ++ [userMsg (synth_fix_prompt (validate_script (env.run attempt)).2)])) with
         | .error e => .error e
         | .ok code =>
           synth_loop env max_attempts fuel (attempt + 1) (shebang_normalize code)
             (msgs ++ [userMsg (synth_fix_prompt (validate_script (env.run attempt)).2)] ++
               [assistantMsg (env.ask
                 (msgs ++ [userMsg (synth_fix_prompt (validate_script (env.run attempt)).2)]))])
             (asks + 1)) := rfl

theorem synthesize_script_eq (env : SynthEnv) (instructions : String) (lines : List String)
    (max_attempts : Nat) :
    synthesize_script env instructions lines max_attempts =
      (match get_final_code_block (env.ask [userMsg (synth_initial_prompt instructions lines)]) with
       | .error e => .error e
       | .ok code =>
         synth_loop env max_attempts max_attempts 0 (shebang_normalize code)
           ([userMsg (synth_initial_prompt instructions lines)] ++
             [assistantMsg (env.ask [userMsg (synth_initial_prompt instructions lines)])]) 1) := rfl

/-! ## Dictionary lemmas -/

theorem dictInsert_idem (k : String) (v : α) (l : List (String × α)) :
    dictInsert k v (dictInsert k v l) = dictInsert k v l := by
  induction l with
  | nil => simp [dictInsert]
  | cons e t ih =>
    by_cases h : (e.1 == k) = true
    · simp [dictInsert, h]
    · simp [dictInsert, h, ih]

theorem dictGet_cons (k : String) (e : String × α) (t : List (String × α)) :
    dictGet k (e :: t) = if e.1 == k then some e.2 else dictGet k t := by
  by_cases h : (e.1 == k) = true
  · simp [dictGet, List.find?_cons_of_pos _ h, h]
  · simp [dictGet, List.find?_cons_of_neg _ h, h]

theorem dictGet_dictInsert (k : String) (v : α) (l : List (String × α)) :
    dictGet k (dictInsert k v l) = some v := by
  induction l with
  | nil => simp [dictInsert, dictGet]
  | cons e t ih =>
    by_cases h : (e.1 == k) = true
    · simp [dictInsert, h, dictGet_cons]
    · simp [dictInsert, h, dictGet_cons, ih]

theorem keyCount_cons (k : String) (e : String × α) (t : List (String × α)) :
    keyCount k (e :: t) = (if e.1 == k then 1 else 0) + keyCount k t := by
  by_cases h : (e.1 == k) = true
  · simp [keyCount, List.filter_cons, h]
    omega
  · simp [keyCount, List.filter_cons, h]

theorem keyCount_dictInsert (k : String) (v : α) (l : List (String × α))
    (h : keyCount k l ≤ 1) : keyCount k (dictInsert k v l) = 1 := by
  induction l with
  | nil => simp [dictInsert, keyCount, List.filter_cons]
  | cons e t ih =>
    rw [keyCount_cons] at h
    by_cases he : (e.1 == k) = true
    · rw [if_pos he] at h
      rw [dictInsert, if_pos he, keyCount_cons]
      simp only [beq_self_eq_true, if_true]
      omega
    · rw [if_neg he] at h
      rw [dictInsert, if_neg he, keyCount_cons, if_neg he]
      have h1 := ih (by omega)
      omega

/-! ## Shebang-normalization lemmas -/

theorem startsWithShebang_prepended (c : String) :
    startsWithShebang ("#!/usr/bin/env python3\n\n" ++ c) = true := by
  rw [startsWithShebang, String.data_append]
  rw [show "#!/usr/bin/env python3\n\n".data =
    '#' :: '!' :: "/usr/bin/env python3\n\n".data from rfl]
  rw [show "#!".data = ['#', '!'] from rfl]
  simp [List.isPrefixOf]

theorem shebang_normalize_idem (c : String) :
    shebang_normalize (shebang_normalize c) = shebang_normalize c := by
  by_cases h : startsWithShebang c = true
  · simp [shebang_normalize, h]
  · have hs : startsWithShebang (shebang_normalize c) = true := by
      rw [shebang_normalize, if_neg h]; exact startsWithShebang_prepended c
    conv_lhs => rw [shebang_normalize]
    rw [if_pos hs]

/-! ## Lemmas about the `create_regex` retry loop -/

theorem regex_failures_empty_matches {env : RegexEnv} {lines : List String} {pattern : String}
    (h : (regex_failures env lines pattern).isEmpty = true) :
    ∀ line ∈ lines, env.re_match pattern line = true := by
  intro line hline
  have h0 : regex_failures env lines pattern = [] := List.isEmpty_iff.mp h
  rw [regex_failures] at h0
  rcases List.take_eq_nil_iff.mp h0 with h5 | hf
  · exact absurd h5 (by decide)
  · have hl := List.filter_eq_nil_iff.mp hf line hline
    simpa using hl

theorem create_regex_loop_matches (env : RegexEnv) (lines : List String) (maxA : Nat) :
    ∀ (fuel : Nat) (pattern : String) (rep : List String) (msgs : List Msg)
      (p' : String) (rep' : List String),
      create_regex_loop env lines maxA fuel pattern rep msgs = .ok (p', rep') →
      ∀ line ∈ lines, env.re_match p' line = true := by
  intro fuel
  induction fuel with
  | zero =>
    intro pattern rep msgs p' rep' h
    exact absurd h (by simp [create_regex_loop])
  | succ fuel ih =>
    intro pattern rep msgs p' rep' h
    rw [create_regex_loop_succ_eq] at h
    by_cases hf : (regex_failures env lines pattern).isEmpty = true
    · rw [if_pos hf] at h
      have heq := Except.ok.inj h
      have hp : pattern = p' := congrArg Prod.fst heq
      intro line hl
      rw [← hp]
      exact regex_failures_empty_matches hf line hl
    · rw [if_neg hf] at h
      split at h
      · exact absurd h (by simp)
      · split at h
        · exact ih _ _ _ p' rep' h
        · exact absurd h (by simp)

theorem create_regex_loop_rep_grows (env : RegexEnv) (lines : List String) (maxA : Nat) :
    ∀ (fuel : Nat) (pattern : String) (rep : List String) (msgs : List Msg)
      (p' : String) (rep' : List String),
      create_regex_loop env lines maxA fuel pattern rep msgs = .ok (p', rep') →
      rep <+: rep' := by
  intro fuel
  induction fuel with
  | zero =>
    intro pattern rep msgs p' rep' h
    exact absurd h (by simp [create_regex_loop])
  | succ fuel ih =>
    intro pattern rep msgs p' rep' h
    rw [create_regex_loop_succ_eq] at h
    by_cases hf : (regex_failures env lines pattern).isEmpty = true
    · rw [if_pos hf] at h
      have heq := Except.ok.inj h
      have hr : rep = rep' := congrArg Prod.snd heq
      exact hr ▸ List.prefix_rfl
    · rw [if_neg hf] at h
      split at h
      · exact absurd h (by simp)
      · split at h
        · exact (List.prefix_append rep _).trans (ih _ _ _ p' rep' h)
        · exact absurd h (by simp)

theorem create_regex_ok_matches (env : RegexEnv) (lines : List String) (maxA : Nat)
    (pattern : String) (rep : List String)
    (h : create_regex env lines maxA = .ok (pattern, rep)) :
    ∀ line ∈ lines, env.re_match pattern line = true := by
  rw [create_regex_eq] at h
  split at h
  · exact absurd h (by simp)
  · split at h
    · exact create_regex_loop_matches env lines maxA maxA _ _ _ pattern rep h
    · exact absurd h (by simp)

theorem regex_failures_ne_empty (env : RegexEnv) (lines : List String) (pattern : String)
    (hbad : ∃ line ∈ lines, ∀ p, env.re_match p line = false) :
    (regex_failures env lines pattern).isEmpty = false := by
  obtain ⟨line, hline, hb⟩ := hbad
  have hmem : line ∈ lines.filter (fun l => !(env.re_match pattern l)) :=
    List.mem_filter.mpr ⟨hline, by simp [hb]⟩
  have hne : (regex_failures env lines pattern) ≠ [] := by
    rw [regex_failures]
    intro hEq
    rcases List.take_eq_nil_iff.mp hEq with h5 | hf
    · exact absurd h5 (by decide)
    · exact List.ne_nil_of_mem hmem hf
  exact Bool.eq_false_iff.mpr (fun h => hne (List.isEmpty_iff.mp h))

theorem create_regex_loop_exhaust (env : RegexEnv) (lines : List String) (maxA : Nat)
    (hask : ∀ m, ∃ c, get_final_code_block (env.ask m) = .ok c)
    (hcomp : ∀ p, env.compiles p = true)
    (hbad : ∃ line ∈ lines, ∀ p, env.re_match p line = false) :
    ∀ (fuel : Nat) (pattern : String) (rep : List String) (msgs : List Msg),
      create_regex_loop env lines maxA fuel pattern rep msgs =
        .error (.valueError
          ("Failed to generate valid regex after " ++ toString maxA ++ " attempts")) := by
  intro fuel
  induction fuel with
  | zero => intro pattern rep msgs; rfl
  | succ fuel ih =>
    intro pattern rep msgs
    obtain ⟨c2, hc2⟩ :=
      hask (msgs ++ [userMsg (regex_fix_prompt (regex_failures env lines pattern))])
    rw [create_regex_loop_succ_eq]
    simp only [regex_failures_ne_empty env lines pattern hbad, Bool.false_eq_true, if_false,
      hc2, hcomp c2, if_true]
    exact ih c2 _ _

theorem create_regex_exhaust (env : RegexEnv) (lines : List String) (maxA : Nat)
    (hask : ∀ m, ∃ c, get_final_code_block (env.ask m) = .ok c)
    (hcomp : ∀ p, env.compiles p = true)
    (hbad : ∃ line ∈ lines, ∀ p, env.re_match p line = false) :
    create_regex env lines maxA =
      .error (.valueError
        ("Failed to generate valid regex after " ++ toString maxA ++ " attempts")) := by
  obtain ⟨c0, hc0⟩ := hask [userMsg (regex_initial_prompt (lines.take 5))]
  rw [create_regex_eq]
  simp only [hc0, hcomp c0, if_true]
  exact create_regex_loop_exhaust env lines maxA hask hcomp hbad maxA c0 _ _

/-! ## Lemmas about the `synthesize_script` repair loop -/

theorem synth_loop_exhaust (env : SynthEnv) (maxA : Nat)
    (hrun : ∀ j, (validate_script (env.run j)).1 = false)
    (hask : ∀ m, ∃ c, get_final_code_block (env.ask m) = .ok c) :
    ∀ (fuel attempt : Nat) (temp : String) (msgs : List Msg) (asks : Nat),
      synth_loop env maxA fuel attempt temp msgs asks =
        .error (.valueError
          ("Failed to generate valid script after " ++ toString maxA ++ " attempts")) := by
  intro fuel
  induction fuel with
  | zero => intro attempt temp msgs asks; rfl
  | succ fuel ih =>
    intro attempt temp msgs asks
    obtain ⟨c2, hc2⟩ :=
      hask (msgs ++ [userMsg (synth_fix_prompt (validate_script (env.run attempt)).2)])
    rw [synth_loop_succ_eq]
    simp only [hrun attempt, Bool.false_eq_true, if_false, hc2]
    exact ih (attempt + 1) _ _ _

theorem synthesize_script_exhaust (env : SynthEnv) (instructions : String)
    (lines : List String) (maxA : Nat)
    (hrun : ∀ j, (validate_script (env.run j)).1 = false)
    (hask : ∀ m, ∃ c, get_final_code_block (env.ask m) = .ok c) :
    synthesize_script env instructions lines maxA =
      .error (.valueError
        ("Failed to generate valid script after " ++ toString maxA ++ " attempts")) := by
  obtain ⟨c0, hc0⟩ := hask [userMsg (synth_initial_prompt instructions lines)]
  rw [synthesize_script_eq]
  simp only [hc0]
  exact synth_loop_exhaust env maxA hrun hask maxA 0 _ _ 1

/-! ## Lemmas about `find_cached_script` -/

theorem find_cached_loop_eq (env : ReEnv) (fs : String → Bool) (lines : List String) :
    ∀ l : List (String × String), (∀ e ∈ l, fs e.2 = true) →
      find_cached_loop env fs lines l =
        (l.find? (fun e => env.compiles e.1 &&
          (lines.take 10).all (fun line => env.re_match e.1 line))).map
          (fun e => script_path_for e.2) := by
  intro l
  induction l with
  | nil => intro _; rfl
  | cons e t ih =>
    intro hfs
    obtain ⟨p, sid⟩ := e
    by_cases hc : env.compiles p = true
    · by_cases hm : ((lines.take 10).all (fun line => env.re_match p line)) = true
      · rw [find_cached_loop, if_pos hc, if_pos hm,
          if_pos (hfs (p, sid) (by simp)), List.find?_cons_of_pos _ (by simp [hc, hm])]
        rfl
      · rw [find_cached_loop, if_pos hc, if_neg hm, List.find?_cons_of_neg]
        · exact ih (fun e he => hfs e (List.mem_cons_of_mem _ he))
        · simp [hm]
    · rw [find_cached_loop, if_neg hc, List.find?_cons_of_neg]
      · exact ih (fun e he => hfs e (List.mem_cons_of_mem _ he))
      · simp [hc]

/-! ## Claim theorems -/

/-- C1: for every list of input lines on which `create_regex` returns
successfully, every line in that list matches the returned pattern under the
matching operation the code verifies with (the `re` library's anchored
`match` on the line, case-sensitive — no `re.IGNORECASE` is passed). -/
theorem claim1_create_regex_all_lines_match (env : RegexEnv) (lines : List String)
    (max_attempts : Nat) (pattern : String) (representative_lines : List String)
    (h : create_regex env lines max_attempts = .ok (pattern, representative_lines)) :
    ∀ line ∈ lines, env.re_match pattern line = true :=
  create_regex_ok_matches env lines max_attempts pattern representative_lines h

/-- Witness for C1 at a concrete environment and line list. -/
theorem claim1_witness : wRegexAll.re_match "^.*$" "a" = true :=
  claim1_create_regex_all_lines_match wRegexAll ["a", "b"] 5 "^.*$" ["a", "b"] rfl "a"
    (by simp)

/-- C2 (amended): `load_cache_metadata` returns the persisted structure when
the file is well-formed and an empty structure when the file does not exist,
but a malformed (unreadable/unparseable) file makes it raise — the
`json.load` exception is not caught. -/
theorem claim2_load_cache_metadata_behavior :
    load_cache_metadata MetadataFile.missing = .ok emptyMetadata ∧
    (∀ field, load_cache_metadata (MetadataFile.wellFormed field) =
      .ok { instructionsToRegexToScriptId := field.getD [] }) ∧
    load_cache_metadata MetadataFile.malformed = .error PyError.jsonDecodeError :=
  ⟨rfl, fun _ => rfl, rfl⟩

/-- C2 counterexample: on a malformed metadata file, `load_cache_metadata`
raises instead of returning the empty structure, contradicting the claim
that a malformed file is never a fatal error. -/
theorem claim2_counterexample :
    load_cache_metadata MetadataFile.malformed = .error PyError.jsonDecodeError ∧
    load_cache_metadata MetadataFile.malformed ≠ .ok emptyMetadata :=
  ⟨rfl, fun h => Except.noConfusion h⟩

/-- C3 (amended): if validation fails on every attempt through
`max_attempts = 5` (and every model reply carries a trailing code block, so
the loop in fact reaches every attempt), the repair loop raises the
exhaustion `ValueError` with the fixed message
`Failed to generate valid script after 5 attempts` — which does not include
the most recent validation failure text — and the cache state (files and
`CacheMetadata`) is left unchanged: no program is cached, no partial
commit. -/
theorem claim3_repair_exhaustion_fixed_message_state_unchanged (renv : RegexEnv)
    (senv : SynthEnv) (sha : String → String) (instructions : String)
    (lines : List String) (st : CacheState) (regex : String) (rep : List String)
    (hcr : create_regex renv lines 5 = .ok (regex, rep))
    (hrun : ∀ j, (validate_script (senv.run j)).1 = false)
    (hask : ∀ m, ∃ c, get_final_code_block (senv.ask m) = .ok c) :
    miss_path renv senv sha instructions lines st =
      (.error (.valueError "Failed to generate valid script after 5 attempts"), st) := by
  have hs := synthesize_script_exhaust senv instructions rep 5 hrun hask
  simp only [miss_path, hcr, hs]
  rfl

/-- Witness for C3 at a concrete environment whose validator always fails
with standard-error text `XYZZY`. -/
theorem claim3_witness :
    miss_path wRegexAll wSynthFail wSha "plot it" ["1", "2"] wState =
      (.error (.valueError "Failed to generate valid script after 5 attempts"), wState) :=
  claim3_repair_exhaustion_fixed_message_state_unchanged wRegexAll wSynthFail wSha
    "plot it" ["1", "2"] wState "^.*$" ["1", "2"] rfl (fun _ => rfl)
    (fun _ => ⟨"import sys", rfl⟩)

/-- C3 counterexample: with every validation failing with standard-error
text `XYZZY` (see `wSynthFail`), the raised error's message is the fixed
exhaustion text and does not contain `XYZZY` — the error does not carry the
most recent validation failure text, contrary to the claim. -/
theorem claim3_counterexample :
    (miss_path wRegexAll wSynthFail wSha "plot it" ["1", "2"] wState).1 =
      .error (.valueError "Failed to generate valid script after 5 attempts") ∧
    (miss_path wRegexAll wSynthFail wSha "plot it" ["1", "2"] wState).2 = wState ∧
    listInfixOf "XYZZY".data "Failed to generate valid script after 5 attempts".data =
      false := by
  refine ⟨?_, ?_, ?_⟩ <;> rfl

/-- C4: `find_cached_script` returns no match when the instruction key is
absent; and — provided every stored script file exists on disk — it returns
the script path of the first stored pattern, in insertion order of the
per-instruction mapping, that compiles and matches every line of the
first-10-line probe window (so a pattern that fails to compile is skipped
without error). -/
theorem claim4_find_cached_script_first_match (env : ReEnv) (fs : String → Bool)
    (instructions : String) (lines : List String) (metadata : Metadata) :
    (dictGet instructions metadata.instructionsToRegexToScriptId = none →
      find_cached_script env fs instructions lines metadata = none) ∧
    (∀ inner, dictGet instructions metadata.instructionsToRegexToScriptId = some inner →
      (∀ e ∈ inner, fs e.2 = true) →
      find_cached_script env fs instructions lines metadata =
        (inner.find? (fun e => env.compiles e.1 &&
          (lines.take 10).all (fun line => env.re_match e.1 line))).map
          (fun e => script_path_for e.2)) := by
  constructor
  · intro h
    simp [find_cached_script, h]
  · intro inner h hfs
    rcases inner with _ | ⟨e, t⟩
    · simp [find_cached_script, h]
    · simp only [find_cached_script, h, List.isEmpty_cons, Bool.false_eq_true, if_false]
      exact find_cached_loop_eq env fs lines (e :: t) hfs

/-- Witness for C4: with two stored patterns of which only the second
matches, the lookup returns the second script, in insertion order. -/
theorem claim4_witness :
    find_cached_script wReB (fun _ => true) "plot X over time" ["b", "b"] wMeta =
      some (script_path_for "id2") := by
  have H := (claim4_find_cached_script_first_match wReB (fun _ => true) "plot X over time"
    ["b", "b"] wMeta).2 [("^a$", "id1"), ("^b$", "id2")] rfl (fun _ _ => rfl)
  rw [H]
  rfl

/-- C5: if the validator succeeds on the current attempt (with at least one
attempt of budget left), the repair loop returns the current candidate body
`temp` at once, with the model-invocation count `asks` unchanged — the
generative model is not invoked again. -/
theorem claim5_synth_loop_returns_on_success (env : SynthEnv)
    (max_attempts fuel attempt : Nat) (temp : String) (msgs : List Msg) (asks : Nat)
    (h : (validate_script (env.run attempt)).1 = true) :
    synth_loop env max_attempts (fuel + 1) attempt temp msgs asks = .ok (temp, asks) := by
  rw [synth_loop_succ_eq, if_pos h]

/-- Witness for C5 at a concrete environment whose validator exits 0. -/
theorem claim5_witness :
    synth_loop wSynthOk 5 5 0 "#!/usr/bin/env python3\n\nimport sys" [] 1 =
      .ok ("#!/usr/bin/env python3\n\nimport sys", 1) :=
  claim5_synth_loop_returns_on_success wSynthOk 5 4 0 "#!/usr/bin/env python3\n\nimport sys"
    [] 1 rfl

/-- C6: `validate_script` reports success exactly when the subprocess exits
with status 0; a non-zero exit carries the captured standard-error text, a
timeout carries the fixed timed-out message, a launch-level fault carries
the fault description; the standard-output stream never influences the
result; reports of a timeout and of a non-zero exit differ whenever the
captured standard error differs from the fixed timeout message; and the
subprocess timeout is 30 seconds. -/
theorem claim6_validate_script_outcomes :
    (∀ o : ProcOutcome, (validate_script o).1 = true ↔ ∃ out err, o = .exits 0 out err) ∧
    (∀ (c : Int) (out err : String), c ≠ 0 →
      validate_script (.exits c out err) = (false, some err)) ∧
    validate_script .timedOut = (false, some "Script execution timed out") ∧
    (∀ msg, validate_script (.raised msg) = (false, some msg)) ∧
    (∀ (c : Int) (out1 out2 err : String),
      validate_script (.exits c out1 err) = validate_script (.exits c out2 err)) ∧
    (∀ (c : Int) (out err : String), c ≠ 0 → err ≠ "Script execution timed out" →
      validate_script (.exits c out err) ≠ validate_script .timedOut) ∧
    validate_timeout_seconds = 30 := by
  refine ⟨?_, ?_, rfl, fun _ => rfl, ?_, ?_, rfl⟩
  · intro o
    constructor
    · intro h
      cases o with
      | exits c out err =>
        by_cases hc : c = 0
        · exact ⟨out, err, by rw [hc]⟩
        · simp [validate_script, hc] at h
      | timedOut => simp [validate_script] at h
      | raised m => simp [validate_script] at h
    · rintro ⟨out, err, rfl⟩
      simp [validate_script]
  · intro c out err hc
    simp [validate_script, hc]
  · intro c out1 out2 err
    rfl
  · intro c out err hc herr
    simp [validate_script, hc, herr]

/-- Witness for C6 at concrete subprocess outcomes. -/
theorem claim6_witness :
    (validate_script (ProcOutcome.exits 0 "out" "err")).1 = true ∧
    validate_script (ProcOutcome.exits 2 "out" "boom") = (false, some "boom") ∧
    validate_script (ProcOutcome.exits 2 "a" "boom") =
      validate_script (ProcOutcome.exits 2 "b" "boom") ∧
    validate_script (ProcOutcome.exits 1 "out" "boom") ≠
      validate_script ProcOutcome.timedOut := by
  have H := claim6_validate_script_outcomes
  exact ⟨(H.1 (ProcOutcome.exits 0 "out" "err")).mpr ⟨"out", "err", rfl⟩,
    H.2.1 2 "out" "boom" (by decide),
    H.2.2.2.2.1 2 "a" "b" "boom",
    H.2.2.2.2.2.1 1 "out" "boom" (by decide) (by decide)⟩

/-- C7: `get_final_code_block` raises the `ValueError` (a hard error, not a
silent empty program) exactly when the reply does not end in a fenced code
block — i.e. admits no decomposition
`pre ++ "```" ++ word ++ "\n" ++ content ++ "\n```" ++ whitespace` — and
when it returns, the returned text is the content of a fenced code block
that ends the reply. -/
theorem claim7_get_final_code_block_trailing_fence (text : String) :
    (∀ s, get_final_code_block text = .ok s → TrailingFence text.data s.data) ∧
    (get_final_code_block text = .error (.valueError "No final code block found") ↔
      ¬ ∃ c, TrailingFence text.data c) := by
  constructor
  · intro s hs
    rw [get_final_code_block] at hs
    rcases hg : fgSearch text.data with _ | g
    · rw [hg] at hs; exact absurd hs (by simp)
    · rw [hg] at hs
      have hsg : String.mk g = s := Except.ok.inj hs
      have hdata : s.data = g := by rw [← hsg]
      obtain ⟨pre, suf, hl, hm⟩ := fgSearch_sound text.data g hg
      obtain ⟨w, mid, ws, hsplit, hw, hws, hgm⟩ := fgMatchAt_sound hm
      refine ⟨pre, w, ws, ?_, hw, hws⟩
      rw [hdata, hgm, hl, hsplit]
      simp [List.append_assoc]
  · rcases hg : fgSearch text.data with _ | g
    · constructor
      · intro _ hex
        have hsome := (trailingFence_iff_isSome text.data).1 hex
        rw [hg] at hsome
        exact absurd hsome (by simp)
      · intro _
        rw [get_final_code_block, hg]
    · constructor
      · intro herr
        rw [get_final_code_block, hg] at herr
        exact absurd herr (by simp)
      · intro hne
        exact absurd ((trailingFence_iff_isSome text.data).2 (by rw [hg]; rfl)) hne

/-- Witness for C7: a reply ending in a fenced block decomposes as such,
with the extracted content as the block body. -/
theorem claim7_witness :
    TrailingFence "intro\n```py\nprint(1)\n```".data "print(1)".data :=
  (claim7_get_final_code_block_trailing_fence "intro\n```py\nprint(1)\n```").1
    "print(1)" rfl

/-- C8: committing the same program body twice under the same instruction
and pattern is idempotent — the second `save_script` returns the same path
and leaves the cache state exactly as after the first — and (when the prior
state holds at most one entry for the touched keys, as any state built by
the code does) the result holds exactly one file at that path, one metadata
entry for the instruction, and one pattern entry inside it, not two. -/
theorem claim8_save_script_idempotent (sha : String → String) (c i r : String)
    (st : CacheState) :
    save_script sha c i r (save_script sha c i r st).2 = save_script sha c i r st ∧
    (keyCount (save_script sha c i r st).1 st.files ≤ 1 →
      keyCount (save_script sha c i r st).1 (save_script sha c i r st).2.files = 1) ∧
    (keyCount i st.metadata.instructionsToRegexToScriptId ≤ 1 →
      keyCount i (save_script sha c i r st).2.metadata.instructionsToRegexToScriptId = 1) ∧
    dictGet i (save_script sha c i r st).2.metadata.instructionsToRegexToScriptId =
      some (dictInsert r (sha (shebang_normalize c))
        ((dictGet i st.metadata.instructionsToRegexToScriptId).getD [])) ∧
    (keyCount r ((dictGet i st.metadata.instructionsToRegexToScriptId).getD []) ≤ 1 →
      keyCount r (dictInsert r (sha (shebang_normalize c))
        ((dictGet i st.metadata.instructionsToRegexToScriptId).getD [])) = 1) := by
  refine ⟨?_, ?_, ?_, ?_, ?_⟩
  · simp [save_script, write_script, shebang_normalize_idem, dictGet_dictInsert,
      dictInsert_idem]
  · intro h
    simp only [save_script, write_script, shebang_normalize_idem]
    exact keyCount_dictInsert _ _ _ h
  · intro h
    simp only [save_script, write_script, shebang_normalize_idem]
    exact keyCount_dictInsert _ _ _ h
  · simp [save_script, write_script, shebang_normalize_idem, dictGet_dictInsert]
  · intro h
    exact keyCount_dictInsert _ _ _ h

/-- Witness for C8 on the empty cache state. -/
theorem claim8_witness :
    save_script wSha "x" "instr" "rgx" (save_script wSha "x" "instr" "rgx" wState).2 =
      save_script wSha "x" "instr" "rgx" wState ∧
    keyCount (save_script wSha "x" "instr" "rgx" wState).1
      (save_script wSha "x" "instr" "rgx" wState).2.files = 1 := by
  have H := claim8_save_script_idempotent wSha "x" "instr" "rgx" wState
  exact ⟨H.1, H.2.1 (by decide)⟩

/-- C9: on each round of `create_regex`, at most 5 failing lines are
collected; the representative set grows monotonically (its value on entry
to the loop is a prefix of the returned one); a successful return is
verified against every line of the full dataset; and if some line can never
match (so every round fails), the default budget of 5 rounds ends in the
exhaustion `ValueError`. -/
theorem claim9_create_regex_rounds (env : RegexEnv) (lines : List String) :
    (∀ pattern, (regex_failures env lines pattern).length ≤ 5) ∧
    (∀ (max_attempts fuel : Nat) (pattern : String) (rep : List String) (msgs : List Msg)
      (p' : String) (rep' : List String),
      create_regex_loop env lines max_attempts fuel pattern rep msgs = .ok (p', rep') →
      rep <+: rep') ∧
    (∀ (max_attempts : Nat) (pattern : String) (rep : List String),
      create_regex env lines max_attempts = .ok (pattern, rep) →
      ∀ line ∈ lines, env.re_match pattern line = true) ∧
    ((∀ m, ∃ c, get_final_code_block (env.ask m) = .ok c) →
     (∀ p, env.compiles p = true) →
     (∃ line ∈ lines, ∀ p, env.re_match p line = false) →
     create_regex env lines 5 =
       .error (.valueError "Failed to generate valid regex after 5 attempts")) := by
  refine ⟨?_, ?_, ?_, ?_⟩
  · intro pattern
    exact List.length_take_le 5 _
  · intro maxA fuel pattern rep msgs p' rep' h
    exact create_regex_loop_rep_grows env lines maxA fuel pattern rep msgs p' rep' h
  · intro maxA pattern rep h
    exact create_regex_ok_matches env lines maxA pattern rep h
  · intro hask hcomp hbad
    rw [create_regex_exhaust env lines 5 hask hcomp hbad]
    rfl

/-- Witness for C9 at concrete environments: the failing-line cap, a
monotone-growth instance, full verification, and exhaustion after 5 rounds
on a line nothing matches. -/
theorem claim9_witness :
    (regex_failures wRegexNone ["z"] "p").length ≤ 5 ∧
    (["a"] : List String) <+: ["a"] ∧
    wRegexAll.re_match "^.*$" "a" = true ∧
    create_regex wRegexNone ["z"] 5 =
      .error (.valueError "Failed to generate valid regex after 5 attempts") := by
  have HA := claim9_create_regex_rounds wRegexAll ["a"]
  have HN := claim9_create_regex_rounds wRegexNone ["z"]
  exact ⟨HN.1 "p",
    HA.2.1 5 1 "p" ["a"] [] "p" ["a"] rfl,
    HA.2.2.1 5 "^.*$" ["a"] rfl "a" (by simp),
    HN.2.2.2 (fun _ => ⟨"^.*$", rfl⟩) (fun _ => rfl) ⟨"z", by simp, fun _ => rfl⟩⟩

/-- C10: every file written by `save_script` content-addresses itself: the
bytes stored at `scripts/<id>.py` are exactly the shebang-normalized
program body, and `<id>` is the digest of those very bytes (`write_script`
does not prepend a second interpreter directive, because `save_script`
normalizes before hashing and writing). -/
theorem claim10_save_script_content_addressed (sha : String → String) (c i r : String)
    (st : CacheState) :
    (save_script sha c i r st).1 = script_path_for (sha (shebang_normalize c)) ∧
    dictGet (script_path_for (sha (shebang_normalize c))) (save_script sha c i r st).2.files =
      some (shebang_normalize c) := by
  constructor
  · rfl
  · simp [save_script, write_script, shebang_normalize_idem, dictGet_dictInsert]

end Anyplot
